import Mathlib

/-!
Verification development for the AI-Profiler pipeline.

This file embeds, as executable Lean definitions, the parts of the
repository that the checked properties talk about:

* the lexical coverage scorer `SkillValidator.calculate_coverage` and its
  callers `load_structured_content`, `load_skills`, `validate_skills`
  (src/skill_validator.py),
* the refinement loop `SkillValidator.validate_and_refine_skills`
  (src/skill_validator.py), modelled as a deterministic transition function
  over oracles for the outcomes of the scoring and refinement calls,
* the structural artifact validator `AI_Profiler.validate_yml_structure`
  (src/main.py) over a model of parsed YAML values,
* the payload-extraction chains of `AI_Profiler.generate_skills`
  (src/main.py) and `skill_agent.generate_skill` (src/md2skills.py),
  parametric in the JSON parser (`json.loads` is standard-library code,
  so it is kept as an explicit function parameter).

Numbers: Python floats are modelled by `ℚ`; the scorer only ever divides a
nonnegative integer count by a positive integer count, and every property
proved here (bounds, monotonicity, zero cases) is about exact comparisons
that the rational model captures.
-/

/-- Model of the single characters kept by the regex `[^\w\s]` removal in
`calculate_coverage.preprocess`: word characters (alphanumeric or
underscore). -/
def isWordChar (c : Char) : Bool := c.isAlphanum || c == '_'

/-- Model of `re.sub(r'\s+', ' ', text)`: every maximal run of whitespace
characters is replaced by a single space. -/
def collapseWs : List Char → List Char
  | [] => []
  | [c] => if c.isWhitespace then [' '] else [c]
  | c :: d :: rest =>
    if c.isWhitespace then
      if d.isWhitespace then collapseWs (d :: rest)
      else ' ' :: collapseWs (d :: rest)
    else c :: collapseWs (d :: rest)

/-- Model of `str.strip()`: drop leading and trailing whitespace. -/
def stripList (l : List Char) : List Char :=
  ((l.dropWhile Char.isWhitespace).reverse.dropWhile Char.isWhitespace).reverse

/-- Model of the inner `preprocess` helper of `calculate_coverage`
(src/skill_validator.py lines 74-80): lowercase, remove characters that are
neither word characters nor whitespace, collapse whitespace runs, strip. -/
def preprocess (text : String) : String :=
  let lowered := text.toList.map Char.toLower
  let filtered := lowered.filter (fun c => isWordChar c || c.isWhitespace)
  String.mk (stripList (collapseWs filtered))

/-- Model of the inner `tokenize` helper (`text.split()`); it is only ever
applied to preprocessed text, whose whitespace is single interior spaces,
where Python `str.split()` coincides with splitting on a space and
discarding empty pieces. -/
def tokenize (text : String) : List String :=
  (text.splitOn " ").filter (fun t => t ≠ "")

/-- Model of `extract_key_phrases` (src/skill_validator.py lines 98-114):
unigrams longer than 2 characters plus contiguous bigrams and trigrams all
of whose tokens are longer than 2 characters. -/
def extract_key_phrases (skill : String) : List String :=
  let tokens := tokenize (preprocess skill)
  let unigrams := tokens.filter (fun t => 2 < t.length)
  let bigrams := (List.range (tokens.length - 1)).filterMap (fun i =>
    if 2 < (tokens.getD i "").length ∧ 2 < (tokens.getD (i + 1) "").length then
      some ((tokens.getD i "") ++ " " ++ (tokens.getD (i + 1) ""))
    else none)
  let trigrams := (List.range (tokens.length - 2)).filterMap (fun i =>
    if 2 < (tokens.getD i "").length ∧ 2 < (tokens.getD (i + 1) "").length ∧
        2 < (tokens.getD (i + 2) "").length then
      some ((tokens.getD i "") ++ " " ++ (tokens.getD (i + 1) "") ++ " " ++
        (tokens.getD (i + 2) ""))
    else none)
  unigrams ++ bigrams ++ trigrams

/-- Contiguous match of `phrase_tokens` inside `content_tokens` at offset
`i` (the inner loop of src/skill_validator.py lines 136-141).  The explicit
bound check mirrors the fact that in Python the offset ranges over
`range(len(content_tokens) - len(phrase_tokens) + 1)`, so every index read
is in range. -/
def matchAt (content_tokens phrase_tokens : List String) (i : ℕ) : Bool :=
  decide (i + phrase_tokens.length ≤ content_tokens.length) &&
  (List.range phrase_tokens.length).all
    (fun j => content_tokens.getD (i + j) "" == phrase_tokens.getD j "")

/-- Token positions of `content_tokens` marked as covered by one key
phrase (src/skill_validator.py lines 126-145): for a single word, every
position holding that token (the `token_positions` lookup); for a
multi-word phrase, every position inside a contiguous occurrence. -/
def phrasePositions (content_tokens : List String) (phrase : String) : Finset ℕ :=
  if ¬ phrase.contains ' ' then
    (Finset.range content_tokens.length).filter
      (fun i => content_tokens.getD i "" = phrase)
  else
    let phrase_tokens := phrase.splitOn " "
    (Finset.range (content_tokens.length - phrase_tokens.length + 1)).biUnion
      (fun i => if matchAt content_tokens phrase_tokens i then
          Finset.Ico i (i + phrase_tokens.length)
        else ∅)

/-- Positions covered by all key phrases of one skill. -/
def skillPositions (content_tokens : List String) (skill : String) : Finset ℕ :=
  (extract_key_phrases skill).foldl
    (fun acc p => acc ∪ phrasePositions content_tokens p) ∅

/-- The accumulated `covered_tokens` set after the loop over all skills
(src/skill_validator.py lines 122-145). -/
def coveredTokens (content_tokens : List String) (skills : List String) : Finset ℕ :=
  skills.foldl (fun acc sk => acc ∪ skillPositions content_tokens sk) ∅

/-- Model of `SkillValidator.calculate_coverage` on its declared domain
(`original_content: str`, src/skill_validator.py lines 58-150): guard for
falsy content or empty skills, tokenize, guard for zero tokens, then
`len(covered_tokens) / total_tokens`. -/
def calculate_coverage (original_content : String) (skills : List String) : ℚ :=
  if original_content = "" ∨ skills = [] then 0
  else
    let content_tokens := tokenize (preprocess original_content)
    if content_tokens.length = 0 then 0
    else ((coveredTokens content_tokens skills).card : ℚ) / (content_tokens.length : ℚ)

/-- Runtime value flowing out of `SkillValidator.load_structured_content`.
Despite the `-> str` annotation, the function returns the Python list
`result` of page-content strings on success and the string `""` on any
exception, so downstream code can receive either a string or a list. -/
inductive ContentVal where
  | str : String → ContentVal
  | list : List String → ContentVal
deriving DecidableEq, Repr

/-- Model of `SkillValidator.load_structured_content`
(src/skill_validator.py lines 30-41).  The argument models the outcome of
reading and JSON-decoding the file and extracting the per-page `content`
fields: `some pages` when that succeeds, `none` when any exception is
raised (in which case the function logs and returns `""`). -/
def load_structured_content (fileData : Option (List String)) : ContentVal :=
  match fileData with
  | some pages => ContentVal.list pages
  | none => ContentVal.str ""

/-- One element of the `skills` list inside a skills-data dict, as
consumed by `SkillValidator.load_skills`: a dict entry contributes the
`str()` of each of its values, a string entry contributes itself, and any
other entry is skipped. -/
inductive SkillEntry where
  | dictE : List String → SkillEntry
  | strE : String → SkillEntry
  | otherE : SkillEntry
deriving DecidableEq, Repr

/-- Skills-data dict restricted to the field the validator reads:
`skills_data.get('skills', [])` (a missing key is modelled by `[]`). -/
structure SkillsData where
  skills : List SkillEntry
deriving DecidableEq, Repr

/-- Model of `SkillValidator.load_skills` (src/skill_validator.py lines
43-56). -/
def load_skills (skills_data : SkillsData) : List String :=
  skills_data.skills.foldl
    (fun acc e =>
      match e with
      | SkillEntry.dictE vals => acc ++ vals
      | SkillEntry.strE s => acc ++ [s]
      | SkillEntry.otherE => acc)
    []

/-- The `calculate_coverage` body evaluated at the value actually passed
at the call site in `validate_skills`, which may be a list because of
`load_structured_content`.  The falsiness guard returns `0.0` for `""`,
for `[]`, and for an empty skill list; on a non-empty list with non-empty
skills, `preprocess` evaluates `text.lower()` on a list and Python raises
`AttributeError`, modelled as `Except.error`. -/
def calculate_coverage_runtime (original_content : ContentVal)
    (skills : List String) : Except String ℚ :=
  match original_content with
  | ContentVal.str s => Except.ok (calculate_coverage s skills)
  | ContentVal.list [] => Except.ok 0
  | ContentVal.list (_ :: _) =>
    if skills = [] then Except.ok 0
    else Except.error "AttributeError: list object has no attribute lower"

/-- Configuration fields of `SkillValidator.__init__`
(src/skill_validator.py lines 18-28). -/
structure SkillValidator where
  threshold : ℚ := 9 / 10
  max_retries : ℕ := 2
deriving DecidableEq, Repr

/-- Model of `SkillValidator.validate_skills` (src/skill_validator.py
lines 152-165): load content and skills, compute coverage, compare with
the threshold.  The method has no exception handler of its own, so an
exception raised by `calculate_coverage` propagates to the caller. -/
def validate_skills (v : SkillValidator) (fileData : Option (List String))
    (skills_data : SkillsData) : Except String (Bool × ℚ) :=
  let original_content := load_structured_content fileData
  let skills := load_skills skills_data
  match calculate_coverage_runtime original_content skills with
  | Except.ok coverage => Except.ok (decide (v.threshold ≤ coverage), coverage)
  | Except.error e => Except.error e

/-- Keys of parsed-YAML mappings: YAML scalars used as keys in the
artifacts at hand are strings and integers. -/
inductive YKey where
  | ks : String → YKey
  | ki : Int → YKey
deriving DecidableEq, BEq, Repr

/-- Parsed-YAML values as produced by `yaml.safe_load`, restricted to the
shapes the structural validator inspects. -/
inductive YVal where
  | s : String → YVal
  | n : Int → YVal
  | list : List YVal → YVal
  | dict : List (YKey × YVal) → YVal

/-- Dict key membership, `k in d` on a parsed mapping. -/
def hasKey (d : List (YKey × YVal)) (k : YKey) : Bool :=
  d.any (fun p => p.1 == k)

/-- Dict lookup `d[k]` (keys of a parsed YAML mapping are unique, so the
first hit is the value). -/
def ylookup (d : List (YKey × YVal)) (k : YKey) : Option YVal :=
  (d.find? (fun p => p.1 == k)).map (fun p => p.2)

/-- Check `isinstance(skill, dict) and len(skill) == 1` from
`validate_yml_structure` (src/main.py lines 214-217). -/
def isSingleKeyDict (v : YVal) : Bool :=
  match v with
  | YVal.dict d => d.length == 1
  | _ => false

/-- Per-group checks of `validate_yml_structure` (src/main.py lines
223-232): the group is a dict, has the keys `type`, `target` and `skills`,
and its `skills` value is a list.  No other property of a group is
checked. -/
def validGroup (g : YVal) : Bool :=
  match g with
  | YVal.dict gd =>
    hasKey gd (YKey.ks "type") && hasKey gd (YKey.ks "target") &&
    hasKey gd (YKey.ks "skills") &&
    (match ylookup gd (YKey.ks "skills") with
     | some (YVal.list _) => true
     | _ => false)
  | _ => false

/-- Model of `AI_Profiler.validate_yml_structure` (src/main.py lines
201-238) applied to the parsed YAML document: both top-level keys present,
`skills` a list of single-key dicts, `groups` a dict of well-shaped
groups.  File-read or YAML exceptions (and a non-dict document) yield
`False` through the `except` clause. -/
def validate_yml_structure (data : YVal) : Bool :=
  match data with
  | YVal.dict d =>
    if hasKey d (YKey.ks "skills") && hasKey d (YKey.ks "groups") then
      match ylookup d (YKey.ks "skills") with
      | some (YVal.list skills) =>
        if skills.all isSingleKeyDict then
          match ylookup d (YKey.ks "groups") with
          | some (YVal.dict groups) => groups.all (fun g => validGroup g.2)
          | _ => false
        else false
      | _ => false
    else false
  | _ => false

/-- One skill entry `{i: desc}` of a serialized artifact. -/
def skillEntryY (i : Int) (desc : String) : YVal :=
  YVal.dict [(YKey.ki i, YVal.s desc)]

/-- Serialized artifact with three skills (ids 0, 1, 2) and one
`Dependency` group whose `skills` field is the given reference list; used
to probe `validate_yml_structure` on group reference lists. -/
def testArtifact (refs : List YVal) : YVal :=
  YVal.dict
    [(YKey.ks "skills",
      YVal.list [skillEntryY 0 "s0", skillEntryY 1 "s1", skillEntryY 2 "s2"]),
     (YKey.ks "groups",
      YVal.dict
        [(YKey.ks "Group1",
          YVal.dict
            [(YKey.ks "type", YVal.s "Dependency"),
             (YKey.ks "target", YVal.s "combined goal"),
             (YKey.ks "skills", YVal.list refs)])])]

/-- Shortest-prefix search used to model a lazy regex capture: returns the
(possibly empty) list of characters standing before the first occurrence
of `needle`, or `none` when `needle` never occurs. -/
def takeUntil (needle : List Char) : List Char → Option (List Char)
  | [] => none
  | c :: rest =>
    if needle.isPrefixOf (c :: rest) then some []
    else (takeUntil needle rest).map (fun p => c :: p)

/-- Scan modelling `re.search(r'```json\n(.*?)\n```', s, re.DOTALL)` from
`skill_agent.generate_skill` (src/md2skills.py line 92): the match starts
at the leftmost fence opening that is followed by a closing delimiter, and
the lazy capture ends at the first closing delimiter after it. -/
def fenceAux : List Char → Option String
  | [] => none
  | c :: rest =>
    if ("```json\n".toList).isPrefixOf (c :: rest) then
      match takeUntil ("\n```".toList) ((c :: rest).drop 8) with
      | some captured => some (String.mk captured)
      | none => fenceAux rest
    else fenceAux rest

/-- Code-fence capture of `generate_skill`, on strings. -/
def fenceMatch (s : String) : Option String := fenceAux s.toList

/-- Scan modelling `re.search(r'\x7b(.*?)\x7d', s, re.DOTALL).group(0)`
from `skill_agent.generate_skill` (src/md2skills.py line 96): the first
opening brace with a closing brace after it, matched lazily, braces
included. -/
def braceAux : List Char → Option String
  | [] => none
  | c :: rest =>
    if c = '{' then
      match takeUntil ['}'] rest with
      | some mid => some (String.mk ('{' :: (mid ++ ['}'])))
      | none => braceAux rest
    else braceAux rest

/-- First-bracket-match capture of `generate_skill`, on strings. -/
def braceMatch (s : String) : Option String := braceAux s.toList

/-- Model of `str.strip()` on strings (same whitespace stripping as
`stripList`). -/
def stripStr (s : String) : String := String.mk (stripList s.toList)

/-- Python slice `s[a:-b]`: drop the last `b` characters, then the first
`a`. -/
def sliceCut (l : List Char) (a b : ℕ) : List Char :=
  (l.take (l.length - b)).drop a

/-- String handed to `json.loads` by `AI_Profiler.generate_skills`
(src/main.py lines 158-164): strip the response, and when it is wrapped in
a code fence (with or without the `json` language tag) cut the fence
markers (`content[7:-3]` respectively `content[3:-3]`) and strip again. -/
def mainExtractCandidate (raw : String) : String :=
  let content := stripStr raw
  if ("```json".toList).isPrefixOf content.toList &&
      ("```".toList).isSuffixOf content.toList then
    stripStr (String.mk (sliceCut content.toList 7 3))
  else if ("```".toList).isPrefixOf content.toList &&
      ("```".toList).isSuffixOf content.toList then
    stripStr (String.mk (sliceCut content.toList 3 3))
  else content

/-- Model of the response handling of `AI_Profiler.generate_skills`
(src/main.py lines 146-173), parametric in the JSON parser.  The whole
body sits in a `try` whose `except Exception` clause only logs, so a parse
failure makes the method fall off the end and return `None`; no exception
escapes.  `Except.ok none` is that silent `None` result. -/
def generate_skills {J : Type} (parse : String → Option J)
    (response : String) : Except String (Option J) :=
  match parse (mainExtractCandidate response) with
  | some result => Except.ok (some result)
  | none => Except.ok none

/-- Model of the response handling of `skill_agent.generate_skill`
(src/md2skills.py lines 85-110), parametric in the JSON parser: direct
parse, then code-fence capture, then first-bracket capture.  A parse
failure of a captured candidate raises `json.JSONDecodeError`, and when no
candidate exists the function raises; the outer `except Exception` clause
re-raises, so all of these propagate as errors. -/
def generate_skill {J : Type} (parse : String → Option J)
    (response_content : String) : Except String J :=
  match parse response_content with
  | some result => Except.ok result
  | none =>
    match fenceMatch response_content with
    | some inner =>
      match parse inner with
      | some result => Except.ok result
      | none => Except.error "json.JSONDecodeError"
    | none =>
      match braceMatch response_content with
      | some whole =>
        match parse whole with
        | some result => Except.ok result
        | none => Except.error "json.JSONDecodeError"
      | none => Except.error "cannot extract valid JSON from the response"

/-- Concrete JSON-parser instance used to evaluate the extraction chains
at specific inputs: it recognises exactly the payload `\x7b\x7d` (the
empty JSON object).  On every string relevant to the evaluations below it
agrees with `json.loads` (which fails on non-JSON prose). -/
def parseStub : String → Option Unit :=
  fun s => if s = "\x7b\x7d" then some () else none

/-- Observable calls made by one run of the refinement loop, in order: a
`validate_skills` scoring pass, a `call_llm_for_refinement` generative
call, a `time.sleep(2)` pacing delay. -/
inductive Ev where
  | validate
  | refine
  | sleep
deriving DecidableEq, Repr

/-- Body of the `while retry_count < max_retries` loop of
`SkillValidator.validate_and_refine_skills` (src/skill_validator.py lines
292-330), as a function of the remaining iteration budget
`max_retries - retry_count` (the loop increments `retry_count` once per
iteration, so that budget decreases by one each time; the
`retry_count > max_retries` break inside the loop is unreachable).
`valRes k` is the `(is_valid, coverage)` pair returned by the `k`-th
scoring pass and `refRes k` the result of the `k`-th refinement call,
where `none` stands for a falsy result (`None` on any API or parse
failure inside `call_llm_for_refinement`, or an empty dict).  On a truthy
refinement result the candidate is replaced and `time.sleep(2)` runs; on
a falsy one the loop breaks with the candidate unchanged.  Returns the
final candidate and the trace of observable calls. -/
def refineLoopAux {α : Type} (valRes : ℕ → Bool × ℚ) (refRes : ℕ → Option α) :
    ℕ → α → ℕ → ℕ → α × List Ev
  | 0, current, _, _ => (current, [])
  | gas + 1, current, v, r =>
    if (valRes v).1 then (current, [Ev.validate])
    else
      match refRes r with
      | some refined =>
        let next := refineLoopAux valRes refRes gas refined (v + 1) (r + 1)
        (next.1, Ev.validate :: Ev.refine :: Ev.sleep :: next.2)
      | none => (current, [Ev.validate, Ev.refine])

/-- Model of `SkillValidator.validate_and_refine_skills`
(src/skill_validator.py lines 272-330) with an explicit `max_retries`
argument: run the loop from `retry_count = 0` on the initial candidate. -/
def validate_and_refine_skills {α : Type} (valRes : ℕ → Bool × ℚ)
    (refRes : ℕ → Option α) (skills_data : α) (max_retries : ℕ) : α × List Ev :=
  refineLoopAux valRes refRes max_retries skills_data 0 0

/-- Pacing automaton over call traces: the flag records that a generative
refinement call has happened with no pacing delay after it yet; a second
refinement call in that state violates pacing. -/
def paced : Bool → List Ev → Bool
  | _, [] => true
  | pending, Ev.refine :: rest => if pending then false else paced true rest
  | _, Ev.sleep :: rest => paced false rest
  | pending, Ev.validate :: rest => paced pending rest

lemma foldl_union_init_subset {β : Type} (f : β → Finset ℕ) (l : List β) :
    ∀ acc : Finset ℕ, acc ⊆ l.foldl (fun a x => a ∪ f x) acc := by
  induction l with
  | nil => intro acc; simp
  | cons x xs ih =>
    intro acc
    simp only [List.foldl_cons]
    exact Finset.Subset.trans Finset.subset_union_left (ih (acc ∪ f x))

lemma foldl_union_subset {β : Type} (f : β → Finset ℕ) (U : Finset ℕ) (l : List β) :
    ∀ acc : Finset ℕ, acc ⊆ U → (∀ x ∈ l, f x ⊆ U) →
      l.foldl (fun a x => a ∪ f x) acc ⊆ U := by
  induction l with
  | nil => intro acc hacc _; simpa using hacc
  | cons x xs ih =>
    intro acc hacc hall
    simp only [List.foldl_cons]
    exact ih (acc ∪ f x)
      (Finset.union_subset hacc (hall x (by simp)))
      (fun y hy => hall y (by simp [hy]))

lemma phrasePositions_subset (ct : List String) (p : String) :
    phrasePositions ct p ⊆ Finset.range ct.length := by
  unfold phrasePositions
  split
  · exact Finset.filter_subset _ _
  · intro x hx
    simp only [Finset.mem_biUnion] at hx
    obtain ⟨i, _, hxi⟩ := hx
    by_cases hm : matchAt ct (p.splitOn " ") i
    · rw [if_pos hm] at hxi
      have hb : i + (p.splitOn " ").length ≤ ct.length := by
        unfold matchAt at hm
        simp only [Bool.and_eq_true, decide_eq_true_eq] at hm
        exact hm.1
      exact Finset.mem_range.mpr (lt_of_lt_of_le (Finset.mem_Ico.mp hxi).2 hb)
    · rw [if_neg hm] at hxi
      simp at hxi

lemma skillPositions_subset (ct : List String) (sk : String) :
    skillPositions ct sk ⊆ Finset.range ct.length :=
  foldl_union_subset _ _ _ ∅ (Finset.empty_subset _)
    (fun p _ => phrasePositions_subset ct p)

lemma coveredTokens_subset (ct : List String) (skills : List String) :
    coveredTokens ct skills ⊆ Finset.range ct.length :=
  foldl_union_subset _ _ _ ∅ (Finset.empty_subset _)
    (fun sk _ => skillPositions_subset ct sk)

lemma coveredTokens_append (ct : List String) (S : List String) (s : String) :
    coveredTokens ct (S ++ [s]) = coveredTokens ct S ∪ skillPositions ct s := by
  unfold coveredTokens
  rw [List.foldl_append]
  rfl

lemma calculate_coverage_nonneg (content : String) (skills : List String) :
    0 ≤ calculate_coverage content skills := by
  unfold calculate_coverage
  split
  · exact le_refl 0
  · dsimp only
    split
    · exact le_refl 0
    · positivity

lemma paced_mono (l : List Ev) : paced true l = true → paced false l = true := by
  induction l with
  | nil => intro _; rfl
  | cons e rest ih =>
    intro hp
    cases e with
    | refine => simp [paced] at hp
    | sleep => simpa [paced] using hp
    | validate =>
      simp only [paced] at hp ⊢
      exact ih hp

lemma paced_run {α : Type} (valRes : ℕ → Bool × ℚ) (refRes : ℕ → Option α) :
    ∀ (gas : ℕ) (current : α) (v r : ℕ),
      paced false (refineLoopAux valRes refRes gas current v r).2 = true := by
  intro gas
  induction gas with
  | zero => intro current v r; rfl
  | succ g ih =>
    intro current v r
    unfold refineLoopAux
    by_cases hv : (valRes v).1
    · rw [if_pos hv]
      rfl
    · rw [if_neg hv]
      cases hr : refRes r with
      | some refined => simpa [paced] using ih refined (v + 1) (r + 1)
      | none => rfl

lemma paced_sleep_before (l : List Ev) : ∀ m : ℕ, paced true l = true →
    l.get? m = some Ev.refine → ∃ k, k < m ∧ l.get? k = some Ev.sleep := by
  induction l with
  | nil => intro m _ hm; simp at hm
  | cons e rest ih =>
    intro m hp hm
    cases e with
    | refine => simp [paced] at hp
    | sleep =>
      cases m with
      | zero => exact absurd hm (by simp)
      | succ n => exact ⟨0, Nat.succ_pos n, rfl⟩
    | validate =>
      cases m with
      | zero => exact absurd hm (by simp)
      | succ n =>
        have hp' : paced true rest = true := by simpa [paced] using hp
        obtain ⟨k, hk, hks⟩ := ih n hp' (by simpa using hm)
        exact ⟨k + 1, Nat.succ_lt_succ hk, by simpa using hks⟩

lemma paced_between (l : List Ev) : ∀ i j : ℕ, paced false l = true → i < j →
    l.get? i = some Ev.refine → l.get? j = some Ev.refine →
    ∃ k, i < k ∧ k < j ∧ l.get? k = some Ev.sleep := by
  induction l with
  | nil => intro i j _ _ hi _; simp at hi
  | cons e rest ih =>
    intro i j hp hij hi hj
    obtain ⟨m, rfl⟩ : ∃ m, j = m + 1 := ⟨j - 1, by omega⟩
    cases i with
    | zero =>
      have he : e = Ev.refine := by simpa using hi
      subst he
      have hp' : paced true rest = true := by simpa [paced] using hp
      obtain ⟨k, hk, hks⟩ := paced_sleep_before rest m hp' (by simpa using hj)
      exact ⟨k + 1, Nat.succ_pos k, Nat.succ_lt_succ hk, by simpa using hks⟩
    | succ n =>
      have hrest : paced false rest = true := by
        cases e with
        | refine => exact paced_mono rest (by simpa [paced] using hp)
        | sleep => simpa [paced] using hp
        | validate => simpa [paced] using hp
      obtain ⟨k, hk1, hk2, hks⟩ :=
        ih n m hrest (by omega) (by simpa using hi) (by simpa using hj)
      exact ⟨k + 1, by omega, by omega, by simpa using hks⟩

/-- Claim C1 (code bug evaluation).  The claim states that every failure
inside the coverage scorer is soft (coverage `0.0`) and that
`validate_skills` always returns an `(is_valid, coverage)` pair instead of
raising.  On the code, when the structured-content file loads
successfully, `load_structured_content` hands `calculate_coverage` a
Python list despite its `-> str` annotation, and with a non-empty list and
non-empty skills `preprocess` evaluates `.lower()` on that list:
`validate_skills` raises `AttributeError` and propagates it.  This theorem
evaluates the model at such a failing input: one successfully loaded page
`"data structures"` and one skill string. -/
theorem validate_skills_raises_on_loaded_content :
    validate_skills {} (some ["data structures"])
      ⟨[SkillEntry.strE "able to define stacks"]⟩ =
    Except.error "AttributeError: list object has no attribute lower" := rfl

/-- Claim C2 (counterexample).  The claim states that a serialized group
referencing fewer than 3 skill ids is rejected by
`validate_yml_structure`.  On the code there is no group-size check: this
artifact has a `Dependency` group with only 2 skill references, yet
structural validation returns `True`. -/
theorem validate_yml_accepts_two_skill_group :
    validate_yml_structure (testArtifact [YVal.n 0, YVal.n 1]) = true := rfl

/-- Claim C2 (amended).  `validate_yml_structure` imposes no minimum size
on a group: for every reference list with fewer than 3 entries, the
otherwise well-formed artifact still passes structural validation.  The
minimum of 3 skills per group is only requested from the generative model
in the prompt text, never enforced by schema validation. -/
theorem validate_yml_no_minimum_group_size (refs : List YVal)
    (_h : refs.length < 3) :
    validate_yml_structure (testArtifact refs) = true := rfl

/-- Witness for `validate_yml_no_minimum_group_size` at a 2-element
reference list. -/
theorem validate_yml_no_minimum_group_size_witness :
    ([YVal.n 0, YVal.n 1].length < 3) ∧
    validate_yml_structure (testArtifact [YVal.n 0, YVal.n 1]) = true :=
  ⟨by decide, validate_yml_no_minimum_group_size [YVal.n 0, YVal.n 1] (by decide)⟩

/-- Claim C3 (counterexample).  The claim states that when no structured
payload can be extracted from a generative response, skill generation
raises and never returns a silent absent result.  `AI_Profiler.generate_skills`
(src/main.py) violates this: its `except Exception` clause only logs, so
on the unparseable response `"no json here"` (no code fence, no bracket,
not valid JSON — `json.loads` fails on it, as the concrete parser instance
does) the method returns `None` silently instead of raising. -/
theorem generate_skills_returns_none_silently :
    generate_skills parseStub "no json here" = Except.ok none := rfl

/-- Claim C3 (amended).  When every extraction strategy fails —
the direct parse, the parse of a code-fence capture (when one exists), the
parse of a first-bracket capture (when one exists), and the parse of the
fence-stripped candidate — then `skill_agent.generate_skill`
(src/md2skills.py) raises, but `AI_Profiler.generate_skills` (src/main.py)
catches the failure, logs it and returns `None`: only the md2skills path
raises rather than returning a silent absent result. -/
theorem generation_parse_failure_behaviour {J : Type}
    (parse : String → Option J) (response : String)
    (h1 : parse response = none)
    (h2 : ∀ inner, fenceMatch response = some inner → parse inner = none)
    (h3 : ∀ whole, braceMatch response = some whole → parse whole = none)
    (h4 : parse (mainExtractCandidate response) = none) :
    (∃ e, generate_skill parse response = Except.error e) ∧
    generate_skills parse response = Except.ok none := by
  constructor
  · cases hf : fenceMatch response with
    | some inner =>
      exact ⟨"json.JSONDecodeError",
        by simp [generate_skill, h1, hf, h2 inner hf]⟩
    | none =>
      cases hb : braceMatch response with
      | some whole =>
        exact ⟨"json.JSONDecodeError",
          by simp [generate_skill, h1, hf, hb, h3 whole hb]⟩
      | none =>
        exact ⟨"cannot extract valid JSON from the response",
          by simp [generate_skill, h1, hf, hb]⟩
  · simp [generate_skills, h4]

/-- Witness for `generation_parse_failure_behaviour` at the concrete
parser instance and the response `"no json here"`. -/
theorem generation_parse_failure_behaviour_witness :
    (parseStub "no json here" = none) ∧
    ((∃ e, generate_skill parseStub "no json here" = Except.error e) ∧
      generate_skills parseStub "no json here" = Except.ok none) :=
  ⟨rfl,
    generation_parse_failure_behaviour parseStub "no json here" rfl
      (fun inner h => by
        rw [show fenceMatch "no json here" = none from rfl] at h
        exact Option.noConfusion h)
      (fun whole h => by
        rw [show braceMatch "no json here" = none from rfl] at h
        exact Option.noConfusion h)
      rfl⟩

/-- Claim C4 (confirmed).  Lexical coverage is monotonically
non-decreasing in the skill list: for every content string, skill list `S`
and extra skill `s`, `calculate_coverage content (S ++ [s])` is at least
`calculate_coverage content S`.  Appending a skill only adds positions to
the covered-token set while the token total is unchanged. -/
theorem calculate_coverage_monotone (content : String) (S : List String)
    (s : String) :
    calculate_coverage content S ≤ calculate_coverage content (S ++ [s]) := by
  by_cases hc : content = ""
  · simp [calculate_coverage, hc]
  · by_cases hS : S = []
    · have h0 : calculate_coverage content S = 0 := by
        simp [calculate_coverage, hS]
      rw [h0]
      exact calculate_coverage_nonneg content (S ++ [s])
    · have hguardL : ¬ (content = "" ∨ S = []) := by simp [hc, hS]
      have hguardR : ¬ (content = "" ∨ S ++ [s] = []) := by simp [hc]
      simp only [calculate_coverage, if_neg hguardL, if_neg hguardR]
      by_cases hz : (tokenize (preprocess content)).length = 0
      · simp [hz]
      · simp only [if_neg hz]
        have hL : (0 : ℚ) < ((tokenize (preprocess content)).length : ℚ) := by
          exact_mod_cast Nat.pos_of_ne_zero hz
        have hsub : coveredTokens (tokenize (preprocess content)) S ⊆
            coveredTokens (tokenize (preprocess content)) (S ++ [s]) := by
          rw [coveredTokens_append]
          exact Finset.subset_union_left
        have hcard : ((coveredTokens (tokenize (preprocess content)) S).card : ℚ) ≤
            ((coveredTokens (tokenize (preprocess content)) (S ++ [s])).card : ℚ) := by
          exact_mod_cast Finset.card_le_card hsub
        exact (div_le_div_iff_of_pos_right hL).mpr hcard

/-- Claim C5 (counterexample).  The claim states that the refinement loop
invoked with `max_retries = 0` scores the initial candidate exactly once.
On the code the `while retry_count < max_retries` condition is false
immediately, so the loop performs zero scoring passes (the call trace is
empty), not one, and returns the initial candidate untouched. -/
theorem refine_zero_retries_counterexample :
    validate_and_refine_skills (fun _ => ((false : Bool), (0 : ℚ)))
      (fun _ => (some 1 : Option ℕ)) 42 0 = (42, []) ∧
    ([] : List Ev).count Ev.validate ≠ 1 := ⟨rfl, by decide⟩

/-- Claim C5 (amended).  With `max_retries = 0`,
`validate_and_refine_skills` performs no scoring pass and no generative
call at all: it returns the initial candidate unchanged with an empty call
trace.  (The no-retried-generative-call part of the original claim holds;
the single-scoring part does not.) -/
theorem refine_zero_retries_amended {α : Type} (valRes : ℕ → Bool × ℚ)
    (refRes : ℕ → Option α) (skills_data : α) :
    validate_and_refine_skills valRes refRes skills_data 0 =
      (skills_data, []) := rfl

/-- Claim C6 (counterexample).  The claim states that a group referencing
a skill id with no matching skill is rejected by schema validation (or
raises `GenerationSchemaError` — no such error exists anywhere in the
code).  Here the group references id `99` while the artifact only defines
skills `0`, `1`, `2`, yet `validate_yml_structure` returns `True`. -/
theorem validate_yml_accepts_dangling_skill_ref :
    validate_yml_structure (testArtifact [YVal.n 0, YVal.n 1, YVal.n 99]) =
      true := rfl

/-- Claim C6 (amended).  `validate_yml_structure` never checks that group
skill references resolve to existing skill ids: any reference list
whatsoever — including ones naming nonexistent ids — passes structural
validation, provided the group's `skills` field is a list and the artifact
is otherwise well-formed. -/
theorem validate_yml_ignores_skill_refs (refs : List YVal) :
    validate_yml_structure (testArtifact refs) = true := rfl

/-- Claim C7 (confirmed).  For every non-empty content string and
non-empty skill list, the lexical coverage returned by
`calculate_coverage` lies between `0.0` and `1.0`: the covered-position
set is a subset of the token-position range, so its cardinality never
exceeds the token total. -/
theorem calculate_coverage_bounds (content : String) (skills : List String)
    (hc : content ≠ "") (hs : skills ≠ []) :
    0 ≤ calculate_coverage content skills ∧
    calculate_coverage content skills ≤ 1 := by
  refine ⟨calculate_coverage_nonneg content skills, ?_⟩
  have hguard : ¬ (content = "" ∨ skills = []) := by simp [hc, hs]
  simp only [calculate_coverage, if_neg hguard]
  by_cases hz : (tokenize (preprocess content)).length = 0
  · simp [hz]
  · simp only [if_neg hz]
    have hL : (0 : ℚ) < ((tokenize (preprocess content)).length : ℚ) := by
      exact_mod_cast Nat.pos_of_ne_zero hz
    rw [div_le_one hL]
    have hcard :=
      Finset.card_le_card (coveredTokens_subset (tokenize (preprocess content)) skills)
    rw [Finset.card_range] at hcard
    exact_mod_cast hcard

/-- Witness for `calculate_coverage_bounds` at concrete content and
skills. -/
theorem calculate_coverage_bounds_witness :
    (("stack push pop" : String) ≠ "") ∧
    ((["able to define the stack"] : List String) ≠ []) ∧
    (0 ≤ calculate_coverage "stack push pop" ["able to define the stack"] ∧
      calculate_coverage "stack push pop" ["able to define the stack"] ≤ 1) :=
  ⟨by decide, by decide,
    calculate_coverage_bounds "stack push pop" ["able to define the stack"]
      (by decide) (by decide)⟩

/-- Claim C8 (confirmed).  A call to the lexical scorer with zero-length
content or an empty skill list returns exactly `0.0` without raising: the
falsiness guard at the top of `calculate_coverage` fires before anything
else runs, which covers both empty content with non-empty skills and an
empty skill list with arbitrary content. -/
theorem calculate_coverage_empty_inputs (content : String)
    (skills : List String) (h : content = "" ∨ skills = []) :
    calculate_coverage_runtime (ContentVal.str content) skills =
      Except.ok 0 ∧
    calculate_coverage content skills = 0 := by
  have h0 : calculate_coverage content skills = 0 := by
    simp only [calculate_coverage, if_pos h]
  exact ⟨by simp [calculate_coverage_runtime, h0], h0⟩

/-- Witness for `calculate_coverage_empty_inputs`, covering both the
empty-content case and the empty-skill-list case. -/
theorem calculate_coverage_empty_inputs_witness :
    ((("" : String) = "" ∨ (["able to define the queue"] : List String) = []) ∧
      (calculate_coverage_runtime (ContentVal.str "")
          ["able to define the queue"] = Except.ok 0 ∧
        calculate_coverage "" ["able to define the queue"] = 0)) ∧
    ((("queues support enqueue" : String) = "" ∨ ([] : List String) = []) ∧
      (calculate_coverage_runtime (ContentVal.str "queues support enqueue")
          [] = Except.ok 0 ∧
        calculate_coverage "queues support enqueue" [] = 0)) :=
  ⟨⟨Or.inl rfl,
    calculate_coverage_empty_inputs "" ["able to define the queue"] (Or.inl rfl)⟩,
   ⟨Or.inr rfl,
    calculate_coverage_empty_inputs "queues support enqueue" [] (Or.inr rfl)⟩⟩

/-- Claim C9 (confirmed).  In the refinement loop, every retried
generative call is separated from the previous generative call issued by
the loop by a pacing delay: between any two `refine` events of a run's
call trace there is a `sleep` event (`time.sleep(2)` runs right after
every refinement call whose result is kept, and a refinement call whose
result is discarded is the last call of the run). -/
theorem refine_pacing_between_retries {α : Type} (valRes : ℕ → Bool × ℚ)
    (refRes : ℕ → Option α) (skills_data : α) (max_retries : ℕ) (i j : ℕ)
    (hij : i < j)
    (hi : (validate_and_refine_skills valRes refRes skills_data
      max_retries).2.get? i = some Ev.refine)
    (hj : (validate_and_refine_skills valRes refRes skills_data
      max_retries).2.get? j = some Ev.refine) :
    ∃ k, i < k ∧ k < j ∧
      (validate_and_refine_skills valRes refRes skills_data
        max_retries).2.get? k = some Ev.sleep :=
  paced_between _ i j (paced_run valRes refRes max_retries skills_data 0 0)
    hij hi hj

/-- Witness for `refine_pacing_between_retries`: a run with two retried
generative calls (trace `[validate, refine, sleep, validate, refine,
sleep]`), whose refine events at positions 1 and 4 are separated by the
sleep at position 2. -/
theorem refine_pacing_between_retries_witness :
    (1 < 4) ∧
    ((validate_and_refine_skills (fun _ => ((false : Bool), (0 : ℚ)))
      (fun _ => (some 1 : Option ℕ)) 0 2).2.get? 1 = some Ev.refine) ∧
    ((validate_and_refine_skills (fun _ => ((false : Bool), (0 : ℚ)))
      (fun _ => (some 1 : Option ℕ)) 0 2).2.get? 4 = some Ev.refine) ∧
    (∃ k, 1 < k ∧ k < 4 ∧
      (validate_and_refine_skills (fun _ => ((false : Bool), (0 : ℚ)))
        (fun _ => (some 1 : Option ℕ)) 0 2).2.get? k = some Ev.sleep) :=
  ⟨by decide, rfl, rfl,
    refine_pacing_between_retries _ _ 0 2 1 4 (by decide) rfl rfl⟩

/-- Claim C10 (confirmed).  At any state of the refinement loop, when the
scoring pass fails the threshold and the retried generation then yields no
usable result (a falsy `call_llm_for_refinement` outcome), the loop breaks
immediately: it returns the current candidate unchanged, and the call
trace of that iteration ends right after the failed refinement call — no
further scoring or generation happens, however much retry budget is
left. -/
theorem refine_failure_keeps_candidate {α : Type} (valRes : ℕ → Bool × ℚ)
    (refRes : ℕ → Option α) (gas : ℕ) (current : α) (v r : ℕ)
    (hv : (valRes v).1 = false) (hr : refRes r = none) :
    refineLoopAux valRes refRes (gas + 1) current v r =
      (current, [Ev.validate, Ev.refine]) := by
  simp [refineLoopAux, hv, hr]

/-- Witness for `refine_failure_keeps_candidate`: with two loop iterations
still allowed, a failed refinement leaves the candidate `7` untouched and
ends the run. -/
theorem refine_failure_keeps_candidate_witness :
    (((fun _ => ((false : Bool), (0 : ℚ))) 0).1 = false) ∧
    ((fun _ => (none : Option ℕ)) 0 = (none : Option ℕ)) ∧
    refineLoopAux (fun _ => ((false : Bool), (0 : ℚ)))
      (fun _ => (none : Option ℕ)) 2 7 0 0 = (7, [Ev.validate, Ev.refine]) :=
  ⟨rfl, rfl, refine_failure_keeps_candidate _ _ 1 7 0 0 rfl rfl⟩
